import Mathlib

/-!
Verification development for the DNA ShapeR table pipeline
(`src/DNASHAPER.py`).

The pipeline core (lines 17-83 of the source) is shallowly embedded here:

* the FASTA parsing loop (source lines 17-33),
* the per-entry numeric table normalization block (source lines 44-63):
  whitespace tokenization, blank-row filtering, ragged-row padding,
  alpha-header dropping, unconditional first-column removal, numeric
  coercion with `0` substitution, and the appended average column,
* the auto-trim / validation block (source lines 65-83).

Modelling conventions:

* Text is modelled as `List Char`; lines of a file as `List (List Char)`.
  All string operations are implemented as plain char-list functions so
  that every definition kernel-evaluates on concrete inputs.
* Python floats are modelled by `ℚ`.  `pd.to_numeric(errors=coerce)`
  followed by `.fillna(0)` is modelled by a decimal-number parser with
  default `0`: a token pandas parses to `NaN` (such as `NaN`) is mapped by
  `.fillna(0)` to `0`, which coincides with the parser failing and
  defaulting to `0`.  (Tokens denoting infinities are not modelled; they
  do not occur in the inputs considered here.)
* `csv.reader` over the comma-joined cleaned lines is modelled as a plain
  split on the comma character (the cleaned lines contain no quote
  processing relevant to whitespace-delimited numeric data; an empty
  cleaned line yields the row `[[]]` here where `csv.reader` yields `[]`,
  and both forms are removed by the blank-row filter that follows).
* Uncaught Python exceptions of the pipeline become `Except.error`
  values: the `ValueError` raised by `max()` on an entry with zero usable
  rows is the `EmptySource` signal of the specification (§4.2, §7), and
  the `IndexError` raised by `row_counts[0]` when the archive has no
  recognized entries is `indexCrash` (it corresponds to no error defined
  by the specification).
-/

/-- A cell token: a run of characters. -/
abbrev Tok := List Char

/-- Whitespace test used for Python `str.split()` with no argument
(space, tab, carriage return, newline). -/
def pyIsSpace (c : Char) : Bool := c.isWhitespace

/-- Python `str.strip()` on a char list: drop whitespace from both ends. -/
def stripChars (cs : List Char) : List Char :=
  ((cs.dropWhile pyIsSpace).reverse.dropWhile pyIsSpace).reverse

/-- Split a char list at every character satisfying `p`, keeping empty
chunks (the semantics of splitting on a single separator). -/
def splitPred (p : Char → Bool) : List Char → List (List Char)
  | [] => [[]]
  | c :: rest =>
    if p c then [] :: splitPred p rest
    else
      match splitPred p rest with
      | [] => [[c]]
      | t :: ts => (c :: t) :: ts

/-- Python `str.split()` with no argument: split on whitespace runs,
dropping empty chunks.  (The source's preceding `.strip()` and
`.replace(tab, space)` are no-ops with respect to this split.) -/
def wordSplit (cs : List Char) : List Tok :=
  (splitPred pyIsSpace cs).filter (fun t => !t.isEmpty)

/-- Join chunks with a single separator character (Python `sep.join`). -/
def joinWith (sep : Char) : List Tok → List Char
  | [] => []
  | [t] => t
  | t :: t2 :: ts => t ++ sep :: joinWith sep (t2 :: ts)

/-- Split a char list on a separator character, keeping empty chunks
(Python `str.split(sep)` / the quote-free fragment of `csv.reader`). -/
def splitOnChar (sep : Char) (cs : List Char) : List Tok :=
  splitPred (fun c => c = sep) cs

/-- Source line 46: `' '.join(line.split())` — collapse whitespace runs. -/
def cleanedLine (l : List Char) : List Char := joinWith ' ' (wordSplit l)

/-- Source lines 47-50: replace each space with a comma and read the line
as one CSV row. -/
def rowOfLine (l : List Char) : List Tok :=
  splitOnChar ',' ((cleanedLine l).map (fun c => if c = ' ' then ',' else c))

/-- Source line 51: keep rows that are non-empty and not all-blank. -/
def keepRow (r : List Tok) : Bool :=
  decide (0 < r.length) && !(r.all (fun cell => cell.isEmpty))

/-- The usable data rows of one archive entry (source lines 45-51). -/
def tableRows (entryLines : List (List Char)) : List (List Tok) :=
  (entryLines.map rowOfLine).filter keepRow

/-- Source line 52: `max_cols = max(len(row) for row in rows)`
(as a total fold; the source raises `ValueError` on an empty list, which
`normalizeEntry` signals before this value is used). -/
def maxCols (rows : List (List Tok)) : Nat :=
  (rows.map List.length).foldl Nat.max 0

/-- Source line 53: right-pad one row with `"0"` tokens to width `m`. -/
def padRow (m : Nat) (r : List Tok) : List Tok :=
  r ++ List.replicate (m - r.length) ['0']

/-- Does some cell of the row contain an alphabetic character?
(Python `str.isalpha` per character; modelled by `Char.isAlpha`.) -/
def rowHasAlpha (r : List Tok) : Bool :=
  r.any (fun cell => cell.any Char.isAlpha)

/-- Source line 54: the header test, applied to the first padded row. -/
def firstRowAlpha (rows : List (List Tok)) : Bool :=
  match rows with
  | [] => false
  | r :: _ => rowHasAlpha r

/-- Source lines 52-56 after the emptiness hurdle: pad every row to the
maximum width and drop the first row when it looks like a header. -/
def headerAdjusted (rows : List (List Tok)) : List (List Tok) :=
  let padded := rows.map (padRow (maxCols rows))
  if firstRowAlpha padded then padded.drop 1 else padded

/-- Digit characters to the natural number they denote, most significant
first. -/
def digitsToNat (ds : List Char) : Nat :=
  ds.foldl (fun a c => 10 * a + (c.toNat - 48)) 0

/-- Optional leading sign of a numeric literal. -/
def parseSign : List Char → ℚ × List Char
  | '+' :: rest => (1, rest)
  | '-' :: rest => (-1, rest)
  | cs => (1, cs)

/-- The integer-and-fraction part of a numeric literal: digits, an
optional point, digits; at least one digit in total. -/
def parseMantissa (cs : List Char) : Option (ℚ × List Char) :=
  let d1 := cs.takeWhile Char.isDigit
  let r1 := cs.dropWhile Char.isDigit
  match r1 with
  | '.' :: rest =>
    let d2 := rest.takeWhile Char.isDigit
    let r2 := rest.dropWhile Char.isDigit
    if d1.isEmpty && d2.isEmpty then none
    else some ((digitsToNat (d1 ++ d2) : ℚ) / (10 : ℚ) ^ d2.length, r2)
  | _ =>
    if d1.isEmpty then none
    else some ((digitsToNat d1 : ℚ), r1)

/-- Exponent digits with a given sign. -/
def parseExpDigits (sgn : ℤ) (cs : List Char) : Option (ℤ × List Char) :=
  let ds := cs.takeWhile Char.isDigit
  if ds.isEmpty then none
  else some (sgn * (digitsToNat ds : ℤ), cs.dropWhile Char.isDigit)

/-- Optional scientific-notation exponent part. -/
def parseExpPart : List Char → Option (ℤ × List Char)
  | [] => some (0, [])
  | c :: rest =>
    if c = 'e' || c = 'E' then
      match rest with
      | '+' :: r2 => parseExpDigits 1 r2
      | '-' :: r2 => parseExpDigits (-1) r2
      | r2 => parseExpDigits 1 r2
    else some (0, c :: rest)

/-- Scale a rational by a signed power of ten. -/
def applyExp (v : ℚ) (e : ℤ) : ℚ :=
  if 0 ≤ e then v * (10 : ℚ) ^ e.toNat else v / (10 : ℚ) ^ (-e).toNat

/-- The decimal-number parser modelling the tokens `pd.to_numeric` maps to
a finite float: optional sign, mantissa, optional exponent, nothing left
over.  Returns `none` for everything else. -/
def pyFloat (cell : Tok) : Option ℚ :=
  let cs := stripChars cell
  let (sgn, cs1) := parseSign cs
  match parseMantissa cs1 with
  | none => none
  | some (v, rest) =>
    match parseExpPart rest with
    | none => none
    | some (e, rest2) => if rest2.isEmpty then some (applyExp (sgn * v) e) else none

/-- Source line 58: `pd.to_numeric(errors=coerce)` then `.fillna(0)` —
total numeric coercion of one cell, unparseable tokens (and `NaN`, which
`fillna` then zeroes) becoming `0`. -/
def coerceCell (cell : Tok) : ℚ := (pyFloat cell).getD 0

/-- The arithmetic mean of a row (`df.mean(axis=1)` at one row; the rows
reaching it contain no `NaN` because `fillna(0)` already ran). -/
def rowMean (r : List ℚ) : ℚ := r.sum / (r.length : ℚ)

/-- Source line 61: append the average cell to every row. -/
def appendAvg (rows : List (List ℚ)) : List (List ℚ) :=
  rows.map (fun r => r ++ [rowMean r])

/-- Source lines 52-61 on a non-empty row list: pad, drop a detected
header, remove the first (index) column of every row unconditionally,
coerce to numbers, append the average column. -/
def normalizeRows (rows : List (List Tok)) : List (List ℚ) :=
  appendAvg ((headerAdjusted rows).map (fun r => (r.drop 1).map coerceCell))

/-- The failure signal of the per-entry normalization: zero usable rows.
The source realizes it as the `ValueError` of `max()` on an empty
sequence at line 52; the specification names this event `EmptySource`. -/
inductive EntryError where
  | emptySource
deriving DecidableEq, Repr

/-- The Numeric Table Normalizer for one archive entry
(source lines 44-61). -/
def normalizeEntry (entryLines : List (List Char)) : Except EntryError (List (List ℚ)) :=
  match tableRows entryLines with
  | [] => .error .emptySource
  | r :: rs => .ok (normalizeRows (r :: rs))

/-- A line beginning with the record marker character
(Python `line.startswith(">")`; an empty line is not a marker). -/
def isMarker (l : List Char) : Bool := l.headD ' ' = '>'

/-- The FASTA accumulation loop (source lines 22-33): current identifier,
accumulated stripped fragments, remaining lines. -/
def fastaLoop : List (List Char) → Option (List Char) → List (List Char) → List (List Char × List Char)
  | [], none, _ => []
  | [], some i, frags => [(i, frags.flatten)]
  | l :: ls, cur, frags =>
    if isMarker l then
      let rest := fastaLoop ls (some (stripChars (l.drop 1))) []
      match cur with
      | none => rest
      | some i => (i, frags.flatten) :: rest
    else fastaLoop ls cur (frags ++ [stripChars l])

/-- The Sequence Record Parser (source lines 17-33): ordered
(identifier, sequence) pairs. -/
def parseFasta (fastaLines : List (List Char)) : List (List Char × List Char) :=
  fastaLoop fastaLines none []

/-- Modelled from the spec (§4.1), for the refinement claim about the
Sequence Record Parser: a marker line starts a record whose identifier is
the trimmed remainder of that line and whose sequence is the
concatenation (no separator) of the trimmed following non-marker lines;
leading non-marker lines are ignored; empty input gives the empty list. -/
def specFastaRecords : List (List Char) → List (List Char × List Char)
  | [] => []
  | l :: ls =>
    if isMarker l then
      (stripChars (l.drop 1),
        ((ls.takeWhile (fun x => !isMarker x)).map stripChars).flatten)
        :: specFastaRecords (ls.dropWhile (fun x => !isMarker x))
    else specFastaRecords ls
termination_by ls => ls.length
decreasing_by
  · exact Nat.lt_succ_of_le (List.IsSuffix.length_le (List.dropWhile_suffix _))
  · exact Nat.lt_succ_of_le (Nat.le_refl _)

/-- Python `name.endswith(".txt")` (source line 41). -/
def endsWithTxt (name : List Char) : Bool :=
  decide (name.reverse.take 4 = ['t', 'x', 't', '.'])

/-- Python `str.replace(".txt", "")`: delete every occurrence of the
four-character substring, scanning left to right. -/
def replaceTxt : List Char → List Char
  | '.' :: 't' :: 'x' :: 't' :: rest => replaceTxt rest
  | c :: rest => c :: replaceTxt rest
  | [] => []

/-- Source line 60: `file_name.split('/')[-1].replace('.txt', '')`. -/
def baseName (name : List Char) : List Char :=
  replaceTxt ((splitOnChar '/' name).reverse.headD [])

/-- Python dict assignment `d[k] = v`: update in place when the key
exists, append otherwise. -/
def dictInsert {α : Type} (k : List Char) (v : α) : List (List Char × α) → List (List Char × α)
  | [] => [(k, v)]
  | (k0, v0) :: rest =>
    if k0 = k then (k, v) :: rest else (k0, v0) :: dictInsert k v rest

/-- The failure modes of the whole pipeline run.  `rowCountMismatch` and
`seqCountMismatch` are the `st.error` + `st.stop` paths (source lines
76-83); `emptySource` is the per-entry `ValueError` named by the
specification; `indexCrash` is the uncaught `IndexError` of
`row_counts[0]` at source line 66 when no entry was processed. -/
inductive PipeError where
  | emptySource
  | indexCrash
  | rowCountMismatch (counts : List (List Char × Nat))
  | seqCountMismatch (expected actual : Nat)
deriving DecidableEq, Repr

/-- The validated output handed to the report renderer: sequence list,
named averaged tables, effective row count, and whether the auto-trim
warning was emitted. -/
structure AlignmentSet where
  sequenceIds : List (List Char)
  sequences : List (List Char)
  tables : List (List Char × List (List ℚ))
  rowCount : Nat
  autoTrimWarned : Bool
deriving DecidableEq, Repr

/-- The raw inputs: the FASTA lines and the archive entries in listing
order, each a (file name, lines) pair. -/
structure PipelineInput where
  fastaLines : List (List Char)
  entries : List (List Char × List (List Char))

/-- The per-entry loop of source lines 43-63: normalize each entry,
store the table under its base name with dict semantics, and append its
row count.  The first `EmptySource` aborts the run. -/
def buildTables : List (List Char × List (List Char)) →
    List (List Char × List (List ℚ)) → List Nat →
    Except PipeError (List (List Char × List (List ℚ)) × List Nat)
  | [], acc, counts => .ok (acc, counts)
  | (fname, lines) :: rest, acc, counts =>
    match normalizeEntry lines with
    | .error _ => .error .emptySource
    | .ok t => buildTables rest (dictInsert (baseName fname) t acc) (counts ++ [t.length])

/-- `abs(a - b) == 1` on naturals (source line 67). -/
def offByOne (a b : Nat) : Bool := a = b + 1 || b = a + 1

/-- `len(set(row_counts)) == 1` for the lists reaching source line 76. -/
def allEqualCounts : List Nat → Bool
  | [] => false
  | c :: cs => cs.all (fun x => x = c)

/-- The recognized archive entries (source line 41). -/
def txtEntriesOf (inp : PipelineInput) : List (List Char × List (List Char)) :=
  inp.entries.filter (fun e => endsWithTxt e.1)

/-- The whole pipeline core (source lines 17-83): FASTA parsing, table
building, auto-trim (source lines 65-73), row-count validation (76-80),
sequence-count validation (81-83). -/
def runPipeline (inp : PipelineInput) : Except PipeError AlignmentSet :=
  let recs := parseFasta inp.fastaLines
  let ids := recs.map Prod.fst
  let seqs := recs.map Prod.snd
  match buildTables (txtEntriesOf inp) [] [] with
  | .error e => .error e
  | .ok (tables, counts) =>
    match counts with
    | [] => .error .indexCrash
    | c0 :: crest =>
      let minLen := min c0 ids.length
      let trim := offByOne ids.length c0
      let ids2 := if trim then ids.take minLen else ids
      let seqs2 := if trim then seqs.take minLen else seqs
      let tables2 :=
        if trim then tables.map (fun p => (p.1, p.2.take minLen)) else tables
      let counts2 := if trim then [minLen] else c0 :: crest
      if !(allEqualCounts counts2) then
        .error (.rowCountMismatch (tables2.map (fun p => (p.1, p.2.length))))
      else if ids2.length ≠ counts2.headD 0 then
        .error (.seqCountMismatch ids2.length (counts2.headD 0))
      else
        .ok ⟨ids2, seqs2, tables2, counts2.headD 0, trim⟩

/-! ## Concrete inputs used by witnesses and counterexamples -/

/-- A FASTA text with five records. -/
def trimFasta : List (List Char) :=
  [">s1", "AA", ">s2", "CC", ">s3", "GG", ">s4", "TT", ">s5", "AC"].map String.toList

/-- An archive entry with four data rows (three columns each). -/
def tableA4 : List (List Char) :=
  ["1 1 2", "2 3 4", "3 5 6", "4 7 8"].map String.toList

/-- An archive entry with five data rows (three columns each). -/
def tableA5 : List (List Char) :=
  ["1 1 2", "2 3 4", "3 5 6", "4 7 8", "5 9 10"].map String.toList

/-- An archive entry with seven data rows (two columns each). -/
def tableB7 : List (List Char) :=
  ["1 1", "2 2", "3 3", "4 4", "5 5", "6 6", "7 7"].map String.toList

/-- Five FASTA records against one 4-row table: the off-by-one case. -/
def trimInput : PipelineInput := ⟨trimFasta, [("MGW.txt".toList, tableA4)]⟩

/-- The tables built for `trimInput`. -/
def trimTables : List (List Char × List (List ℚ)) :=
  ((buildTables (txtEntriesOf trimInput) [] []).toOption.getD ([], [])).1

/-- Five FASTA records against a 4-row and a 7-row table: the feature
tables disagree among themselves while the sequence count and the first
table's count differ by exactly 1. -/
def mismatchTrimInput : PipelineInput :=
  ⟨trimFasta, [("A.txt".toList, tableA4), ("B.txt".toList, tableB7)]⟩

/-- Five FASTA records against a 5-row and a 7-row table: the mismatch
example of the specification (§8). -/
def mismatchInput : PipelineInput :=
  ⟨trimFasta, [("A.txt".toList, tableA5), ("B.txt".toList, tableB7)]⟩

/-- The tables built for `mismatchInput`. -/
def mismatchTables : List (List Char × List (List ℚ)) :=
  ((buildTables (txtEntriesOf mismatchInput) [] []).toOption.getD ([], [])).1

/-- A FASTA text plus an archive with zero recognized text entries. -/
def noEntriesInput : PipelineInput := ⟨[">s1", "ACGT"].map String.toList, []⟩

/-! ## Helper lemmas -/

/-- The fold initial value is below the fold of `Nat.max`. -/
lemma foldl_max_init_le (l : List Nat) (a : Nat) : a ≤ l.foldl Nat.max a := by
  induction l generalizing a with
  | nil => exact Nat.le_refl a
  | cons x xs ih => exact Nat.le_trans (Nat.le_max_left a x) (ih (Nat.max a x))

/-- Every member is below the fold of `Nat.max`. -/
lemma mem_le_foldl_max (l : List Nat) (a x : Nat) (h : x ∈ l) : x ≤ l.foldl Nat.max a := by
  induction l generalizing a with
  | nil => cases h
  | cons y ys ih =>
    cases h with
    | head => exact Nat.le_trans (Nat.le_max_right a x) (foldl_max_init_le ys (Nat.max a x))
    | tail _ hmem => exact ih (Nat.max a y) hmem

/-- Every row's width is below `maxCols`. -/
lemma length_le_maxCols (rows : List (List Tok)) (r : List Tok) (h : r ∈ rows) :
    r.length ≤ maxCols rows :=
  mem_le_foldl_max _ 0 _ (List.mem_map_of_mem List.length h)

/-- Padding a row of width at most `m` yields width exactly `m`. -/
lemma padRow_length (m : Nat) (r : List Tok) (h : r.length ≤ m) :
    (padRow m r).length = m := by
  simp [padRow, Nat.add_sub_cancel' h]

/-- Rows kept by the blank filter are non-empty. -/
lemma keepRow_pos (r : List Tok) (h : keepRow r = true) : 0 < r.length := by
  have h1 := (Bool.and_eq_true _ _).mp h
  exact of_decide_eq_true h1.1

/-- Every row of `tableRows` is non-empty. -/
lemma tableRows_mem_pos (entryLines : List (List Char)) (r : List Tok)
    (h : r ∈ tableRows entryLines) : 0 < r.length :=
  keepRow_pos r (List.mem_filter.mp h).2

/-- `any` over a constant-`false` replication is `false`. -/
lemma any_replicate_false {α : Type} (n : Nat) (a : α) (p : α → Bool) (hp : p a = false) :
    (List.replicate n a).any p = false := by
  induction n with
  | zero => rfl
  | succ k ih => simp [List.replicate_succ, ih, hp]

/-- Padding with `"0"` tokens does not change the header test. -/
lemma rowHasAlpha_padRow (m : Nat) (r : List Tok) :
    rowHasAlpha (padRow m r) = rowHasAlpha r := by
  have h0 : (List.replicate (m - r.length) ['0']).any
      (fun cell => cell.any Char.isAlpha) = false :=
    any_replicate_false _ _ _ (by decide)
  simp [rowHasAlpha, padRow, List.any_append, h0]

/-- `getD` through a `map`, inside bounds. -/
lemma getD_map_lt {α β : Type} (f : α → β) (l : List α) (i : Nat) (d : β) (da : α)
    (hlt : i < l.length) :
    (l.map f).getD i d = f (l.getD i da) := by
  induction l generalizing i with
  | nil => simp at hlt
  | cons x xs ih =>
    cases i with
    | zero => simp
    | succ k =>
      simpa using ih k (Nat.lt_of_succ_lt_succ hlt)

/-- An in-bounds `getD` is a member. -/
lemma getD_mem_of_lt {α : Type} (l : List α) (i : Nat) (d : α) (h : i < l.length) :
    l.getD i d ∈ l := by
  induction l generalizing i with
  | nil => simp at h
  | cons x xs ih =>
    cases i with
    | zero => simp
    | succ k =>
      simpa using Or.inr (ih k (Nat.lt_of_succ_lt_succ h))

/-! ## Claim theorems -/

/-- Claim C3: for every archive entry, the Numeric Table Normalizer is
total up to one failure mode: it signals `EmptySource` exactly when the
entry has zero rows after blank-line removal, and produces a table in
every other case.  (The source realizes the empty case as the
`ValueError` of `max()` at line 52; the specification names that event
`EmptySource`.) -/
theorem normalizer_total_or_emptySource (entryLines : List (List Char)) :
    (normalizeEntry entryLines = .error .emptySource ↔ tableRows entryLines = []) ∧
    ((normalizeEntry entryLines).isOk = true ↔ tableRows entryLines ≠ []) := by
  cases h : tableRows entryLines with
  | nil => simp [normalizeEntry, h, Except.isOk, Except.toBool]
  | cons r rs => simp [normalizeEntry, h, Except.isOk, Except.toBool]

/-- Claim C7: numeric coercion of a cell is a total function, and every
token the numeric parser rejects coerces to the value `0`. -/
theorem coercion_default_zero (cell : Tok) (h : pyFloat cell = none) :
    coerceCell cell = 0 := by
  simp [coerceCell, h]

/-- Claim C7 witness: the malformed tokens `"NaN"` and `"?"` of the
specification's examples both coerce to `0`. -/
theorem coercion_default_zero_witness :
    coerceCell "NaN".toList = 0 ∧ coerceCell "?".toList = 0 :=
  ⟨coercion_default_zero _ rfl, coercion_default_zero _ rfl⟩

/-- Claim C4: appending the average column maps row `i` to the same row
followed by one cell holding the arithmetic mean (`rowMean`, the sum of
the row's pre-append cells divided by their count), and row `i`'s width
grows by exactly one. -/
theorem average_column_append (rows : List (List ℚ)) (i : Nat) (h : i < rows.length) :
    (appendAvg rows).getD i [] = rows.getD i [] ++ [rowMean (rows.getD i [])] ∧
    ((appendAvg rows).getD i []).length = (rows.getD i []).length + 1 := by
  have h1 : (appendAvg rows).getD i [] = rows.getD i [] ++ [rowMean (rows.getD i [])] :=
    getD_map_lt (fun r => r ++ [rowMean r]) rows i [] [] h
  exact ⟨h1, by rw [h1]; simp⟩

/-- Claim C4 witness: on the table `[[1,2,3]]` the appended cell is the
mean of `1,2,3`, which evaluates to the specification's example value
`2`, and the width grows from `3` to `4`. -/
theorem average_column_append_witness :
    ((appendAvg [[(1 : ℚ), 2, 3]]).getD 0 [] =
        [(1 : ℚ), 2, 3] ++ [rowMean [(1 : ℚ), 2, 3]] ∧
      ((appendAvg [[(1 : ℚ), 2, 3]]).getD 0 []).length = 4) ∧
    rowMean [(1 : ℚ), 2, 3] = 2 := by
  refine ⟨average_column_append [[(1 : ℚ), 2, 3]] 0 (by decide), ?_⟩
  norm_num [rowMean]

/-- Claim C5: for every non-empty archive entry, the produced table is
rectangular — every row of the table `normalizeEntry` returns has the
same cell count, equal to the maximum token count `maxCols` across the
entry's usable input lines (the feature cells of the padded row minus
the stripped index column, plus the appended average column). -/
theorem normalizer_rectangular (entryLines : List (List Char)) (t : List (List ℚ))
    (h : normalizeEntry entryLines = .ok t) :
    ∀ row ∈ t, row.length = maxCols (tableRows entryLines) := by
  cases htr : tableRows entryLines with
  | nil => simp [normalizeEntry, htr] at h
  | cons r rs =>
    simp only [normalizeEntry, htr, Except.ok.injEq] at h
    subst h
    intro row hrow
    simp only [normalizeRows, appendAvg] at hrow
    rcases List.mem_map.mp hrow with ⟨x, hx, hxrow⟩
    rcases List.mem_map.mp hx with ⟨q, hq, hqx⟩
    have hqpad : q ∈ (r :: rs).map (padRow (maxCols (r :: rs))) := by
      simp only [headerAdjusted] at hq
      split at hq
      · exact List.drop_subset 1 _ hq
      · exact hq
    rcases List.mem_map.mp hqpad with ⟨z, hz, hzq⟩
    have hzlen : z.length ≤ maxCols (r :: rs) := length_le_maxCols _ _ hz
    have hqlen : q.length = maxCols (r :: rs) := by
      rw [← hzq]; exact padRow_length _ _ hzlen
    have hpos : 0 < maxCols (r :: rs) := by
      have hr : 0 < r.length :=
        tableRows_mem_pos entryLines r (htr ▸ List.mem_cons_self r rs)
      exact Nat.lt_of_lt_of_le hr (length_le_maxCols _ _ (List.mem_cons_self r rs))
    rw [← hxrow, ← hqx]
    simp [List.length_drop, hqlen]
    omega

/-- Claim C5 witness: the ragged entry with lines `1 2 3` and `4 5` has
maximum token count 3, and the first produced row indeed has 3 cells. -/
theorem normalizer_rectangular_witness :
    (((normalizeEntry (["1 2 3", "4 5"].map String.toList)).toOption.getD []).getD 0 []).length =
      maxCols (tableRows (["1 2 3", "4 5"].map String.toList)) ∧
    maxCols (tableRows (["1 2 3", "4 5"].map String.toList)) = 3 := by
  refine ⟨normalizer_rectangular (["1 2 3", "4 5"].map String.toList)
      ((normalizeEntry (["1 2 3", "4 5"].map String.toList)).toOption.getD []) rfl _
      (getD_mem_of_lt _ 0 [] (by decide)), by decide⟩

/-- Claim C6: the first data row is dropped before numeric coercion if
and only if some of its cells contains an alphabetic character: with
usable rows `r :: rs`, the produced table has `rs.length` rows when `r`
has an alphabetic character and `rs.length + 1` rows when it does not. -/
theorem header_row_detection (entryLines : List (List Char)) (r : List Tok)
    (rs : List (List Tok)) (h : tableRows entryLines = r :: rs) :
    (normalizeEntry entryLines).map List.length =
      .ok (if rowHasAlpha r then rs.length else rs.length + 1) := by
  simp only [normalizeEntry, h, Except.map, Except.ok.injEq]
  simp only [normalizeRows, appendAvg, List.length_map, headerAdjusted, List.map_cons,
    firstRowAlpha, rowHasAlpha_padRow]
  by_cases ha : rowHasAlpha r = true
  · simp [ha]
  · simp [ha]

/-- Claim C6 witness: the entry whose first line is `a b` (alphabetic)
keeps 1 data row out of 2 lines; the entry whose first line is `1 2`
(purely numeric) keeps both lines as data rows. -/
theorem header_row_detection_witness :
    (normalizeEntry (["a b", "1 2"].map String.toList)).map List.length =
        .ok (if rowHasAlpha [['a'], ['b']] then 1 else 2) ∧
    (normalizeEntry (["1 2", "3 4"].map String.toList)).map List.length =
        .ok (if rowHasAlpha [['1'], ['2']] then 1 else 2) ∧
    rowHasAlpha [['a'], ['b']] = true ∧ rowHasAlpha [['1'], ['2']] = false :=
  ⟨header_row_detection (["a b", "1 2"].map String.toList) [['a'], ['b']] [[['1'], ['2']]] rfl,
    header_row_detection (["1 2", "3 4"].map String.toList) [['1'], ['2']] [[['3'], ['4']]] rfl,
    by decide, by decide⟩

/-- Claim C9: the first cell of every (padded, header-adjusted) data row
is unconditionally removed: output row `i` consists of the numeric
coercions of the row's cells minus its first cell, followed by the
average computed over exactly those remaining cells — the leading index
column never reaches the output nor the average.  (`normalizeEntry`
takes no caller-facing switch to keep the column.) -/
theorem index_column_removed (entryLines : List (List Char)) (t : List (List ℚ))
    (i : Nat) (q : List Tok)
    (h : normalizeEntry entryLines = .ok t)
    (hi : i < (headerAdjusted (tableRows entryLines)).length)
    (hq : (headerAdjusted (tableRows entryLines)).getD i [] = q) :
    t.getD i [] =
      (q.drop 1).map coerceCell ++ [rowMean ((q.drop 1).map coerceCell)] := by
  cases htr : tableRows entryLines with
  | nil => simp [normalizeEntry, htr] at h
  | cons r rs =>
    simp only [normalizeEntry, htr, Except.ok.injEq] at h
    subst h
    rw [htr] at hi hq
    simp only [normalizeRows, appendAvg, List.map_map]
    rw [getD_map_lt _ _ i [] [] hi, hq]
    simp [Function.comp]

/-- Claim C9 witness: on the entry with lines `1 10 20` and `2 30 40`,
output row 0 is the coercion of the cells `10 20` (the leading `1` is
gone) plus their average. -/
theorem index_column_removed_witness :
    ((normalizeEntry (["1 10 20", "2 30 40"].map String.toList)).toOption.getD []).getD 0 [] =
      (([['1'], ['1', '0'], ['2', '0']].drop 1).map coerceCell) ++
        [rowMean (([['1'], ['1', '0'], ['2', '0']].drop 1).map coerceCell)] :=
  index_column_removed (["1 10 20", "2 30 40"].map String.toList)
    ((normalizeEntry (["1 10 20", "2 30 40"].map String.toList)).toOption.getD [])
    0 [['1'], ['1', '0'], ['2', '0']] rfl (by decide) (by decide)

/-- Claim C2: whenever the sequence count and the first table's row count
differ by exactly 1, the run succeeds with the auto-trim applied: the
sequence lists and every feature table are truncated to
`min(first_table_count, sequence_count)`, the effective row count equals
that minimum, and the warning flag is set (the warning is emitted
alongside the output, not swallowed). -/
theorem auto_trim_reconciler (inp : PipelineInput)
    (tables : List (List Char × List (List ℚ))) (c0 : Nat) (crest : List Nat)
    (hb : buildTables (txtEntriesOf inp) [] [] = .ok (tables, c0 :: crest))
    (h1 : offByOne (parseFasta inp.fastaLines).length c0 = true) :
    runPipeline inp = .ok
      { sequenceIds := ((parseFasta inp.fastaLines).map Prod.fst).take
          (min c0 (parseFasta inp.fastaLines).length)
        sequences := ((parseFasta inp.fastaLines).map Prod.snd).take
          (min c0 (parseFasta inp.fastaLines).length)
        tables := tables.map
          (fun p => (p.1, p.2.take (min c0 (parseFasta inp.fastaLines).length)))
        rowCount := min c0 (parseFasta inp.fastaLines).length
        autoTrimWarned := true } := by
  simp [runPipeline, hb, List.length_map, h1, allEqualCounts, List.length_take,
    Nat.min_assoc, Nat.min_self]

/-- Claim C2 witness: 5 FASTA records against one 4-row table — the run
succeeds, trimmed to 4 rows, with the warning flag set. -/
theorem auto_trim_reconciler_witness :
    runPipeline trimInput = .ok
      { sequenceIds := ((parseFasta trimInput.fastaLines).map Prod.fst).take
          (min 4 (parseFasta trimInput.fastaLines).length)
        sequences := ((parseFasta trimInput.fastaLines).map Prod.snd).take
          (min 4 (parseFasta trimInput.fastaLines).length)
        tables := trimTables.map
          (fun p => (p.1, p.2.take (min 4 (parseFasta trimInput.fastaLines).length)))
        rowCount := min 4 (parseFasta trimInput.fastaLines).length
        autoTrimWarned := true } ∧
    (parseFasta trimInput.fastaLines).length = 5 ∧
    min 4 (parseFasta trimInput.fastaLines).length = 4 :=
  ⟨auto_trim_reconciler trimInput trimTables 4 [] rfl rfl, rfl, rfl⟩

/-- Claim C1 counterexample: with 5 FASTA records, a 4-row table `A`
and a 7-row table `B`, the feature tables disagree among themselves
(counts 4 and 7), yet — because the sequence count and the first table's
count differ by exactly 1 — the auto-trim fires first, replaces the
count list with the minimum, and the run SUCCEEDS with output: no
`RowCountMismatch` is reported, contradicting the claim's "including
when the sequence count and the first table's count happen to differ by
exactly 1". -/
theorem mismatch_swallowed_by_auto_trim :
    (buildTables (txtEntriesOf mismatchTrimInput) [] []).map Prod.snd = .ok [4, 7] ∧
    (parseFasta mismatchTrimInput.fastaLines).length = 5 ∧
    (runPipeline mismatchTrimInput).isOk = true ∧
    (runPipeline mismatchTrimInput).map AlignmentSet.autoTrimWarned = .ok true :=
  ⟨rfl, rfl, rfl, rfl⟩

/-- Claim C1 (amended): whenever the collected row counts are not all
equal AND the sequence count does not differ from the first table's
count by exactly 1, the run terminates with a `RowCountMismatch` error
whose payload reports each table's row count, and no output is produced.
(When the off-by-one holds, the auto-trim replaces the count list with
the single minimum before validation, so the mismatch among tables is
not detected and the run can succeed.) -/
theorem mismatch_reported_when_no_off_by_one (inp : PipelineInput)
    (tables : List (List Char × List (List ℚ))) (c0 : Nat) (crest : List Nat)
    (hb : buildTables (txtEntriesOf inp) [] [] = .ok (tables, c0 :: crest))
    (hne : allEqualCounts (c0 :: crest) = false)
    (hno : offByOne (parseFasta inp.fastaLines).length c0 = false) :
    runPipeline inp =
      .error (.rowCountMismatch (tables.map (fun p => (p.1, p.2.length)))) := by
  simp [runPipeline, hb, List.length_map, hno, hne]

/-- Claim C1 (amended) witness: the specification's own example —
sequence count 5, table `A` 5 rows, table `B` 7 rows — ends in a
`RowCountMismatch` whose payload lists `A: 5` and `B: 7`. -/
theorem mismatch_reported_witness :
    runPipeline mismatchInput =
      .error (.rowCountMismatch (mismatchTables.map (fun p => (p.1, p.2.length)))) ∧
    mismatchTables.map (fun p => (p.1, p.2.length)) =
      [("A".toList, 5), ("B".toList, 7)] :=
  ⟨mismatch_reported_when_no_off_by_one mismatchInput mismatchTables 5 [7] rfl rfl rfl,
    rfl⟩

/-- Claim C10: an archive with zero recognized text entries does NOT
reach reconciliation or validation and reports no defined pipeline
error: the run aborts with the uncontrolled `IndexError` of
`row_counts[0]` (source line 66), modelled as `indexCrash` — the code
crashes where the claim requires a graceful outcome. -/
theorem empty_archive_uncontrolled_crash :
    runPipeline noEntriesInput = .error .indexCrash ∧
    (txtEntriesOf noEntriesInput).length = 0 :=
  ⟨rfl, rfl⟩

/-- Loop invariant of the FASTA parser when a record is open: the open
record finishes with the stripped fragments collected so far plus the
upcoming non-marker lines, and the rest follows the specification. -/
lemma fastaLoop_some (ls : List (List Char)) :
    ∀ (i : List Char) (frags : List (List Char)),
    fastaLoop ls (some i) frags =
      (i, (frags ++ (ls.takeWhile (fun x => !isMarker x)).map stripChars).flatten)
        :: specFastaRecords (ls.dropWhile (fun x => !isMarker x)) := by
  induction ls with
  | nil =>
    intro i frags
    simp [fastaLoop, specFastaRecords]
  | cons l ls ih =>
    intro i frags
    cases hm : isMarker l with
    | true =>
      simp [fastaLoop, hm, ih, specFastaRecords, List.takeWhile_cons,
        List.dropWhile_cons]
    | false =>
      simp [fastaLoop, hm, ih, List.takeWhile_cons, List.dropWhile_cons,
        List.append_assoc]

/-- Loop invariant of the FASTA parser before the first marker: pending
fragments are ignored and the output follows the specification. -/
lemma fastaLoop_none (ls : List (List Char)) :
    ∀ frags, fastaLoop ls none frags = specFastaRecords ls := by
  induction ls with
  | nil =>
    intro frags
    simp [fastaLoop, specFastaRecords]
  | cons l ls ih =>
    intro frags
    cases hm : isMarker l with
    | true =>
      simp [fastaLoop, hm, fastaLoop_some, specFastaRecords]
    | false =>
      simp [fastaLoop, hm, ih, specFastaRecords]

/-- Claim C8: the Sequence Record Parser agrees with the specification's
contract on every input: each marker line's trimmed remainder becomes the
identifier and the trimmed following non-marker lines concatenate (no
separator) into the sequence; leading non-marker lines before the first
marker are ignored, empty input yields the empty list, and a record with
no sequence lines carries the empty sequence. -/
theorem fasta_records_spec (fastaLines : List (List Char)) :
    parseFasta fastaLines = specFastaRecords fastaLines :=
  fastaLoop_none fastaLines []
